import Mathlib

/-!
Verification development for the portfolio Monte Carlo simulator
(src/portfolio_monte_carlo.py and src/portfolio_simulator.py).

The numeric core of the two scripts is embedded shallowly:

* the risk-statistics functions of analyze_results / display_results
  (percentile ladder, median, CVaR selection, probability of loss) are
  embedded over the rationals, mirroring numpy's documented exact
  semantics (linear-interpolation percentile, mean of the two middle
  order statistics, boolean-mask mean); a NaN produced by the mean of
  an empty selection is modelled as Option.none;
* the Cholesky try / regularize-once / fail control flow around
  numpy.linalg.cholesky is embedded with the library primitive kept as
  an explicit parameter returning Option (none models LinAlgError);
* the correlated-GBM price recursion (the per-simulation inner loops)
  is embedded over the reals, with Real.exp and Real.sqrt standing for
  the floating-point transcendentals;
* the portfolio_paths array-filling logic of run_monte_carlo_portfolio
  (zero initialisation, row 0, per-simulation terminal write, and the
  first-100-simulations visualization rewrite) is embedded as explicit
  functional updates applied in program order.
-/

namespace PortfolioMC

/-- Ascending sort underlying the numpy order statistics
(np.percentile and np.median both operate on the sorted data). -/
def sortAsc (xs : List ℚ) : List ℚ :=
  xs.mergeSort (fun a b => decide (a ≤ b))

/-- np.percentile with the default linear interpolation method, as used at
portfolio_monte_carlo.py lines 278-284: with sorted data a of length n and
virtual index h = q/100 * (n-1), the result is
a[floor h] + (h - floor h) * (a[ceil h] - a[floor h]). -/
def percentile (xs : List ℚ) (q : ℚ) : ℚ :=
  let s := sortAsc xs
  let h : ℚ := q / 100 * ((s.length : ℚ) - 1)
  s.getD (Int.toNat ⌊h⌋) 0 + (h - ⌊h⌋) * (s.getD (Int.toNat ⌈h⌉) 0 - s.getD (Int.toNat ⌊h⌋) 0)

/-- np.median as used at portfolio_monte_carlo.py line 273: the middle order
statistic for odd length, the mean of the two middle order statistics for
even length. -/
def npMedian (xs : List ℚ) : ℚ :=
  let s := sortAsc xs
  if s.length % 2 = 1 then s.getD (s.length / 2) 0
  else (s.getD (s.length / 2 - 1) 0 + s.getD (s.length / 2) 0) / 2

/-- analyze_results line 278: var_5 = np.percentile(returns, 5). -/
def var5 (returns : List ℚ) : ℚ := percentile returns 5

/-- analyze_results line 280: cvar_5 = np.mean(returns[returns <= var_5]).
np.mean of an empty selection is NaN; that case is modelled as none. -/
def cvar5 (returns : List ℚ) : Option ℚ :=
  let sel := returns.filter (fun x => decide (x ≤ var5 returns))
  if sel.length = 0 then none else some (sel.sum / (sel.length : ℚ))

/-- analyze_results line 275: prob_loss = np.mean(returns < 0) * 100.
The boolean-mask mean is the count of strictly negative entries divided by
the length, and the code multiplies that fraction by 100. -/
def probLoss (returns : List ℚ) : ℚ :=
  (((returns.filter (fun x => decide (x < 0))).length : ℚ) / (returns.length : ℚ)) * 100

/-- portfolio_simulator.py display_results line 223:
prob_negative = np.mean(returns < 0), the plain fraction. -/
def probNegative (returns : List ℚ) : ℚ :=
  ((returns.filter (fun x => decide (x < 0))).length : ℚ) / (returns.length : ℚ)

end PortfolioMC

namespace PortfolioMC

/-- The fatal outcome of the factorization step: numpy.linalg.cholesky raised
LinAlgError on the regularized matrix as well, so the uncaught exception
aborts the run (spec name: FactorizationError). -/
inductive FactorizationError where
  | notPositiveDefinite
  deriving DecidableEq

/-- The regularization constant of portfolio_monte_carlo.py line 198 and
portfolio_simulator.py line 158: np.eye(n) * 1e-6. -/
def regEps : ℚ := 1 / 1000000

/-- The try / except control flow of portfolio_monte_carlo.py lines 193-199
(identical at portfolio_simulator.py lines 153-159): attempt
numpy.linalg.cholesky on the daily covariance; on LinAlgError add 1e-6 times
the identity and retry once; a second LinAlgError propagates and aborts.
The library primitive is an explicit parameter npCholesky, where none models
a LinAlgError raise. -/
def factorizeDailyCov {n : ℕ}
    (npCholesky : Matrix (Fin n) (Fin n) ℚ → Option (Matrix (Fin n) (Fin n) ℚ))
    (covDaily : Matrix (Fin n) (Fin n) ℚ) :
    Except FactorizationError (Matrix (Fin n) (Fin n) ℚ) :=
  match npCholesky covDaily with
  | some chol => Except.ok chol
  | none =>
      match npCholesky (covDaily + regEps • (1 : Matrix (Fin n) (Fin n) ℚ)) with
      | some chol => Except.ok chol
      | none => Except.error FactorizationError.notPositiveDefinite

/-- A concrete stand-in for the library primitive, used to instantiate the
factorization theorem at a concrete input: it factors every matrix as itself
(adequate for the 1-by-1 identity). -/
def idChol : Matrix (Fin 1) (Fin 1) ℚ → Option (Matrix (Fin 1) (Fin 1) ℚ) :=
  fun M => some M

end PortfolioMC


namespace PortfolioMC

/-- One daily GBM update of run_monte_carlo_portfolio lines 229-237 (the same
arithmetic appears at portfolio_simulator.py lines 180-190):
drift = (daily_returns - 0.5 * diag(daily_cov)) * dt,
diffusion = sqrt(diag(daily_cov) * dt) * (chol @ shocks),
prices *= exp(drift + diffusion).
Real.exp and Real.sqrt stand for the floating-point transcendentals. -/
noncomputable def gbmStep {n : ℕ} (dailyReturns : Fin n → ℝ)
    (dailyCov chol : Matrix (Fin n) (Fin n) ℝ) (dt : ℝ)
    (shocks prices : Fin n → ℝ) : Fin n → ℝ :=
  fun i =>
    prices i * Real.exp ((dailyReturns i - 0.5 * dailyCov i i) * dt
      + Real.sqrt (dailyCov i i * dt) * (∑ j, chol i j * shocks j))

/-- The per-simulation price path of run_monte_carlo_portfolio lines 226-237:
current_prices starts at the initial prices and is updated once per day,
day t consuming the pre-generated draws random_matrix[sim, t, :] (argument z). -/
noncomputable def simPrices {n : ℕ} (dailyReturns : Fin n → ℝ)
    (dailyCov chol : Matrix (Fin n) (Fin n) ℝ) (dt : ℝ)
    (z : ℕ → Fin n → ℝ) (p0 : Fin n → ℝ) : ℕ → Fin n → ℝ
  | 0 => p0
  | t + 1 => gbmStep dailyReturns dailyCov chol dt (z t)
      (simPrices dailyReturns dailyCov chol dt z p0 t)

/-- The visualization reconstruction of run_monte_carlo_portfolio lines
246-252: temp_prices starts at the initial prices and the loop for day in
range(1, horizon_days + 1) consumes random_matrix[sim, day - 1, :] - the
index day - 1 is kept verbatim in the recursion. -/
noncomputable def vizPrices {n : ℕ} (dailyReturns : Fin n → ℝ)
    (dailyCov chol : Matrix (Fin n) (Fin n) ℝ) (dt : ℝ)
    (z : ℕ → Fin n → ℝ) (p0 : Fin n → ℝ) : ℕ → Fin n → ℝ
  | 0 => p0
  | d + 1 => gbmStep dailyReturns dailyCov chol dt (z (d + 1 - 1))
      (vizPrices dailyReturns dailyCov chol dt z p0 d)

/-- run_monte_carlo_portfolio line 206: shares_held = (weights * 100000) / initial_prices. -/
noncomputable def sharesHeld {n : ℕ} (weights p0 : Fin n → ℝ) : Fin n → ℝ :=
  fun i => weights i * 100000 / p0 i

/-- run_monte_carlo_portfolio line 241: portfolio_value = np.sum(prices * shares). -/
noncomputable def portfolioValue {n : ℕ} (prices shares : Fin n → ℝ) : ℝ :=
  ∑ i, prices i * shares i

/-- numpy.linalg.cholesky on a 1-by-1 matrix [[c]], modelled from its
documented semantics: it succeeds with the factor [[sqrt c]] exactly when the
matrix is positive definite (c > 0), and raises LinAlgError (modelled as
none) otherwise; in particular the zero matrix fails. -/
noncomputable def npCholesky1 (c : ℝ) : Option ℝ :=
  if 0 < c then some (Real.sqrt c) else none

/-- run_monte_carlo_portfolio specialised to a single asset: the
factorization try / regularize-once control flow of lines 193-199 (the
in-place update daily_cov += eye * 1e-6 makes the regularized variance feed
the later drift and diffusion), then the GBM path of lines 226-237 over H
days with draws z, and the terminal portfolio value of line 241 with weight
w, initial price p0 and initial investment 100000. -/
noncomputable def runSim1 (mu c p0 w : ℝ) (z : ℕ → ℝ) (H : ℕ) :
    Except FactorizationError ℝ :=
  match npCholesky1 c with
  | some l =>
      Except.ok (portfolioValue
        (simPrices (fun _ : Fin 1 => mu) (Matrix.of fun _ _ => c)
          (Matrix.of fun _ _ => l) 1 (fun t _ => z t) (fun _ => p0) H)
        (sharesHeld (fun _ => w) (fun _ => p0)))
  | none =>
      match npCholesky1 (c + 1 / 1000000) with
      | some l =>
          Except.ok (portfolioValue
            (simPrices (fun _ : Fin 1 => mu) (Matrix.of fun _ _ => c + 1 / 1000000)
              (Matrix.of fun _ _ => l) 1 (fun t _ => z t) (fun _ => p0) H)
            (sharesHeld (fun _ => w) (fun _ => p0)))
      | none => Except.error FactorizationError.notPositiveDefinite

end PortfolioMC


namespace PortfolioMC

/-- Daily log returns of calculate_portfolio_statistics line 143 (and
run_portfolio_simulation line 143): np.log(prices / prices.shift(1)).dropna().
Row t of the result pairs row t of the panel with row t+1 and takes the
elementwise log of the price ratio; the floating-point log is the explicit
parameter logf. -/
def logReturns {n : ℕ} (logf : ℚ → ℚ) (prices : List (Fin n → ℚ)) :
    List (Fin n → ℚ) :=
  (prices.zip prices.tail).map (fun pq => fun i => logf (pq.2 i / pq.1 i))

/-- pandas DataFrame.mean() per column: the mean of an empty column is NaN,
modelled as none. -/
def colMean {n : ℕ} (rows : List (Fin n → ℚ)) : Option (Fin n → ℚ) :=
  if rows.length = 0 then none
  else some (fun i => (rows.map (fun r => r i)).sum / (rows.length : ℚ))

/-- pandas DataFrame.cov() (sample covariance, ddof = 1): with fewer than two
rows every entry is NaN (division by zero degrees of freedom), modelled as
none. -/
def colCov {n : ℕ} (rows : List (Fin n → ℚ)) :
    Option (Matrix (Fin n) (Fin n) ℚ) :=
  if rows.length < 2 then none
  else some (Matrix.of fun i j =>
    (rows.map (fun r =>
      (r i - (rows.map (fun s => s i)).sum / (rows.length : ℚ)) *
      (r j - (rows.map (fun s => s j)).sum / (rows.length : ℚ)))).sum
      / ((rows.length : ℚ) - 1))

/-- The spec's InsufficientDataError (spec section 4.1).  No such exception
exists anywhere in the source; the constructor is declared so that the
estimation result type could signal it, making it provable that the code
never does. -/
inductive EstimationError where
  | insufficientData
  deriving DecidableEq

/-- The annualized statistics of the return-model estimation. -/
structure PortfolioStats (n : ℕ) where
  meanReturns : Option (Fin n → ℚ)
  covMatrix : Option (Matrix (Fin n) (Fin n) ℚ)

/-- calculate_portfolio_statistics lines 142-147: log returns, then
mean_returns = returns.mean() * 252 and cov_matrix = returns.cov() * 252.
The function performs no length validation and never signals an error; with
an empty or single-row panel the statistics are the NaN values produced by
pandas, modelled as none. -/
def calculatePortfolioStatistics {n : ℕ} (logf : ℚ → ℚ)
    (prices : List (Fin n → ℚ)) : Except EstimationError (PortfolioStats n) :=
  let returns := logReturns logf prices
  Except.ok
    { meanReturns := (colMean returns).map (fun m => fun i => m i * 252)
      covMatrix := (colCov returns).map (fun M => Matrix.of fun i j => M i j * 252) }

/-- A single array assignment portfolio_paths[day, sim] = v, as a functional
update of the matrix viewed as a function of (row day, column sim). -/
def setEntry {α : Type} (M : ℕ → ℕ → α) (day sim : ℕ) (v : α) : ℕ → ℕ → α :=
  fun d s => if d = day ∧ s = sim then v else M d s

/-- run_monte_carlo_portfolio line 213: portfolio_paths[0, :] = value (the
whole row 0). -/
def setRow0 {α : Type} (M : ℕ → ℕ → α) (v : α) : ℕ → ℕ → α :=
  fun d s => if d = 0 then v else M d s

/-- The per-simulation writes of run_monte_carlo_portfolio lines 242-253:
portfolio_paths[-1, sim] = terminal value (row index -1 is row H), then,
only for sim < 100, portfolio_paths[day, sim] = visualization value for
day in range(1, horizon_days + 1). -/
def fillSim {α : Type} (H : ℕ) (terminal : ℕ → α) (viz : ℕ → ℕ → α)
    (M : ℕ → ℕ → α) (sim : ℕ) : ℕ → ℕ → α :=
  let M1 := setEntry M H sim (terminal sim)
  if sim < 100 then
    (List.range' 1 H).foldl (fun acc day => setEntry acc day sim (viz sim day)) M1
  else M1

/-- The portfolio_paths matrix of run_monte_carlo_portfolio lines 210-253:
np.zeros((horizon_days + 1, n_sims)), row 0 set to the initial value, then
the per-simulation writes in loop order sim = 0 .. n_sims - 1. -/
def portfolioPathsMatrix {α : Type} (H nsims : ℕ) (zeroV initV : α)
    (terminal : ℕ → α) (viz : ℕ → ℕ → α) : ℕ → ℕ → α :=
  (List.range nsims).foldl (fillSim H terminal viz)
    (setRow0 (fun _ _ => zeroV) initV)

/-- The portfolio_paths matrix with the values the code actually writes:
zeros, initial value 100000 on row 0, the main-pass terminal value of lines
226-242 per simulation, and the visualization reconstruction of lines
246-253 for the first 100 simulations. -/
noncomputable def runMonteCarloPaths {n : ℕ} (dailyReturns : Fin n → ℝ)
    (dailyCov chol : Matrix (Fin n) (Fin n) ℝ)
    (randomMatrix : ℕ → ℕ → Fin n → ℝ) (p0 weights : Fin n → ℝ)
    (H nsims : ℕ) : ℕ → ℕ → ℝ :=
  portfolioPathsMatrix H nsims 0 100000
    (fun sim => portfolioValue
      (simPrices dailyReturns dailyCov chol 1 (randomMatrix sim) p0 H)
      (sharesHeld weights p0))
    (fun sim day => portfolioValue
      (vizPrices dailyReturns dailyCov chol 1 (randomMatrix sim) p0 day)
      (sharesHeld weights p0))

end PortfolioMC

namespace PortfolioMC

theorem sortAsc_perm (xs : List ℚ) : (sortAsc xs).Perm xs :=
  List.mergeSort_perm xs _

theorem sortAsc_length (xs : List ℚ) : (sortAsc xs).length = xs.length :=
  (sortAsc_perm xs).length_eq

theorem sortAsc_pairwise (xs : List ℚ) : List.Pairwise (· ≤ ·) (sortAsc xs) := by
  have h := @List.sorted_mergeSort ℚ (fun a b : ℚ => decide (a ≤ b))
    (fun a b c hab hbc => by
      simp only [decide_eq_true_eq] at *
      exact le_trans hab hbc)
    (fun a b => by
      simp only [Bool.or_eq_true, decide_eq_true_eq]
      exact le_total a b)
    xs
  exact h.imp (fun hab => of_decide_eq_true hab)

theorem sortAsc_getD_mono (xs : List ℚ) {i j : ℕ} (hij : i ≤ j)
    (hj : j < (sortAsc xs).length) :
    (sortAsc xs).getD i 0 ≤ (sortAsc xs).getD j 0 := by
  rcases Nat.eq_or_lt_of_le hij with h | h
  · subst h; exact le_refl _
  · have hi : i < (sortAsc xs).length := lt_trans h hj
    rw [List.getD_eq_getElem _ _ hi, List.getD_eq_getElem _ _ hj]
    have := (List.pairwise_iff_get.mp (sortAsc_pairwise xs)) ⟨i, hi⟩ ⟨j, hj⟩ h
    simpa using this

theorem sortAsc_getD_mem (xs : List ℚ) {i : ℕ} (hi : i < (sortAsc xs).length) :
    (sortAsc xs).getD i 0 ∈ xs := by
  rw [List.getD_eq_getElem _ _ hi]
  exact (sortAsc_perm xs).subset (List.getElem_mem hi)

theorem min_le_percentile (xs : List ℚ) (q : ℚ) (hxs : xs ≠ [])
    (hq0 : 0 ≤ q) (hq1 : q ≤ 100) :
    ∃ x ∈ xs, x ≤ percentile xs q := by
  have hlen : 0 < xs.length := List.length_pos.mpr hxs
  have hslen : 0 < (sortAsc xs).length := by rw [sortAsc_length]; exact hlen
  set s := sortAsc xs with hs
  set n := s.length with hn
  set h : ℚ := q / 100 * ((n : ℚ) - 1) with hh
  have hn1 : (1 : ℚ) ≤ (n : ℚ) := by exact_mod_cast hslen
  have hq100 : q / 100 ≤ 1 := by linarith
  have hq100' : 0 ≤ q / 100 := by positivity
  have hh0 : 0 ≤ h := by
    apply mul_nonneg hq100'
    linarith
  have hhub : h ≤ (n : ℚ) - 1 := by
    calc h = q / 100 * ((n : ℚ) - 1) := hh
    _ ≤ 1 * ((n : ℚ) - 1) := by
        apply mul_le_mul_of_nonneg_right hq100
        linarith
    _ = (n : ℚ) - 1 := one_mul _
  have hfl0 : 0 ≤ ⌊h⌋ := Int.floor_nonneg.mpr hh0
  have hclub : ⌈h⌉ ≤ (n : ℤ) - 1 := by
    apply Int.ceil_le.mpr
    push_cast
    exact hhub
  have hflc : ⌊h⌋ ≤ ⌈h⌉ := Int.floor_le_ceil h
  have hlo_le_hi : Int.toNat ⌊h⌋ ≤ Int.toNat ⌈h⌉ := Int.toNat_le_toNat hflc
  have hhi_lt : Int.toNat ⌈h⌉ < n := by
    have h1 : Int.toNat ⌈h⌉ ≤ Int.toNat ((n : ℤ) - 1) := Int.toNat_le_toNat hclub
    have h2 : Int.toNat ((n : ℤ) - 1) = n - 1 := by
      omega
    omega
  have hlo_lt : Int.toNat ⌊h⌋ < n := lt_of_le_of_lt hlo_le_hi hhi_lt
  have hmem : s.getD 0 0 ∈ xs := sortAsc_getD_mem xs hslen
  refine ⟨s.getD 0 0, hmem, ?_⟩
  have hma : s.getD 0 0 ≤ s.getD (Int.toNat ⌊h⌋) 0 :=
    sortAsc_getD_mono xs (Nat.zero_le _) hlo_lt
  have hab : s.getD (Int.toNat ⌊h⌋) 0 ≤ s.getD (Int.toNat ⌈h⌉) 0 :=
    sortAsc_getD_mono xs hlo_le_hi hhi_lt
  have hfrac : 0 ≤ h - ⌊h⌋ := by
    have := Int.floor_le h
    linarith
  have : s.getD (Int.toNat ⌊h⌋) 0 ≤ percentile xs q := by
    show s.getD (Int.toNat ⌊h⌋) 0 ≤
      s.getD (Int.toNat ⌊h⌋) 0 + (h - ⌊h⌋) * (s.getD (Int.toNat ⌈h⌉) 0 - s.getD (Int.toNat ⌊h⌋) 0)
    have : 0 ≤ (h - ⌊h⌋) * (s.getD (Int.toNat ⌈h⌉) 0 - s.getD (Int.toNat ⌊h⌋) 0) :=
      mul_nonneg hfrac (by linarith)
    linarith
  linarith

end PortfolioMC

namespace PortfolioMC

/-- Claim C5: for every non-empty vector of per-path returns, the 50th entry
of the percentile ladder computed with the linear-interpolation percentile
method equals the reported median return exactly. -/
theorem c5_percentile50_eq_median (xs : List ℚ) (hxs : xs ≠ []) :
    percentile xs 50 = npMedian xs := by
  have hlen : 0 < xs.length := List.length_pos.mpr hxs
  have hslen : 0 < (sortAsc xs).length := by rw [sortAsc_length]; exact hlen
  simp only [percentile, npMedian]
  set s := sortAsc xs with hs
  rcases Nat.even_or_odd s.length with he | ho
  · obtain ⟨m, hm⟩ := he
    have hm1 : 1 ≤ m := by omega
    have hq : (50 : ℚ) / 100 * ((s.length : ℚ) - 1) = (m : ℚ) - 1/2 := by
      rw [hm]; push_cast; ring
    rw [hq]
    have hfl : ⌊(m : ℚ) - 1/2⌋ = (m : ℤ) - 1 := by
      rw [Int.floor_eq_iff]
      constructor
      · push_cast; linarith
      · push_cast; linarith
    have hcl : ⌈(m : ℚ) - 1/2⌉ = (m : ℤ) := by
      rw [Int.ceil_eq_iff]
      constructor
      · push_cast; linarith
      · push_cast; linarith
    rw [hfl, hcl]
    rw [show Int.toNat ((m : ℤ) - 1) = m - 1 from by omega]
    rw [show Int.toNat (m : ℤ) = m from by omega]
    rw [if_neg (by omega : ¬ s.length % 2 = 1)]
    rw [show s.length / 2 = m from by omega]
    have hfrac : ((m : ℚ) - 1/2 - (((m : ℤ) - 1 : ℤ) : ℚ)) = 1/2 := by
      push_cast; ring
    rw [hfrac]
    ring
  · obtain ⟨m, hm⟩ := ho
    have hq : (50 : ℚ) / 100 * ((s.length : ℚ) - 1) = (m : ℚ) := by
      rw [hm]; push_cast; ring
    rw [hq]
    rw [Int.floor_natCast, Int.ceil_natCast]
    rw [show Int.toNat (m : ℤ) = m from by omega]
    rw [if_pos (by omega : s.length % 2 = 1)]
    rw [show s.length / 2 = m from by omega]
    have hfrac : ((m : ℚ) - ((m : ℤ) : ℚ)) = 0 := by push_cast; ring
    rw [hfrac]
    ring

end PortfolioMC

namespace PortfolioMC

theorem c5_witness :
    ([(1 : ℚ), 2] ≠ []) ∧ percentile [(1 : ℚ), 2] 50 = npMedian [(1 : ℚ), 2] :=
  ⟨by simp, c5_percentile50_eq_median [(1 : ℚ), 2] (by simp)⟩

/-- Claim C3: for every non-empty vector of per-path returns, if no return
value satisfies x ≤ VaR_5 then the computed CVaR_5 equals VaR_5 rather than
an undefined value.  The second and third conjuncts record why: under linear
interpolation VaR_5 is at least the minimum return, so the selection
returns[returns <= var_5] is never empty and the CVaR_5 mean is always
defined (never the NaN of an empty mean). -/
theorem c3_cvar5_defined_for_nonempty_returns (r : List ℚ) (h : r ≠ []) :
    ((∀ x ∈ r, ¬ x ≤ var5 r) → cvar5 r = some (var5 r)) ∧
    (∃ x ∈ r, x ≤ var5 r) ∧
    (∃ q, cvar5 r = some q) := by
  have hmin : ∃ x ∈ r, x ≤ var5 r :=
    min_le_percentile r 5 h (by norm_num) (by norm_num)
  obtain ⟨x, hxmem, hxle⟩ := hmin
  have hsel : x ∈ r.filter (fun y => decide (y ≤ var5 r)) := by
    rw [List.mem_filter]
    exact ⟨hxmem, by simpa using hxle⟩
  have hlen : (r.filter (fun y => decide (y ≤ var5 r))).length ≠ 0 := by
    have := List.length_pos.mpr (List.ne_nil_of_mem hsel)
    omega
  refine ⟨?_, ⟨x, hxmem, hxle⟩, ?_⟩
  · intro hall
    exact absurd hxle (hall x hxmem)
  · refine ⟨(r.filter (fun y => decide (y ≤ var5 r))).sum /
      ((r.filter (fun y => decide (y ≤ var5 r))).length : ℚ), ?_⟩
    simp only [cvar5]
    rw [if_neg hlen]

theorem c3_witness :
    ([(1 : ℚ)] ≠ []) ∧
    (((∀ x ∈ [(1 : ℚ)], ¬ x ≤ var5 [(1 : ℚ)]) → cvar5 [(1 : ℚ)] = some (var5 [(1 : ℚ)])) ∧
     (∃ x ∈ [(1 : ℚ)], x ≤ var5 [(1 : ℚ)]) ∧
     (∃ q, cvar5 [(1 : ℚ)] = some q)) :=
  ⟨by simp, c3_cvar5_defined_for_nonempty_returns [(1 : ℚ)] (by simp)⟩

/-- Claim C6 counterexample: at the concrete return vector [-1], analyze_results
reports prob_loss = 100, which is not a number in [0,1]; the code multiplies
the fraction of negative returns by 100. -/
theorem c6_counterexample_prob_loss_is_percent :
    probLoss [-(1 : ℚ)] = 100 ∧ ¬ probLoss [-(1 : ℚ)] ≤ 1 := by
  have hf : List.filter (fun x => decide (x < 0)) [-(1 : ℚ)] = [-(1 : ℚ)] := by
    norm_num [List.filter_cons, List.filter_nil]
  have h1 : probLoss [-(1 : ℚ)] = 100 := by
    simp only [probLoss, hf]
    norm_num
  exact ⟨h1, by rw [h1]; norm_num⟩

/-- Claim C6 amended: analyze_results reports the probability of loss as
100 times the fraction of returns strictly below zero (a percentage in
[0,100]); the plain fraction, as reported by portfolio_simulator's
display_results, lies in [0,1]. -/
theorem c6_amended_prob_loss_scaling (r : List ℚ) (h : r ≠ []) :
    probLoss r = 100 * probNegative r ∧
    0 ≤ probNegative r ∧ probNegative r ≤ 1 ∧
    0 ≤ probLoss r ∧ probLoss r ≤ 100 := by
  have hlen : 0 < r.length := List.length_pos.mpr h
  have hlenq : (0 : ℚ) < (r.length : ℚ) := by exact_mod_cast hlen
  have hfl : ((r.filter (fun x => decide (x < 0))).length : ℚ) ≤ (r.length : ℚ) := by
    exact_mod_cast List.length_filter_le _ _
  have hfl0 : (0 : ℚ) ≤ ((r.filter (fun x => decide (x < 0))).length : ℚ) := by positivity
  have hfrac1 : ((r.filter (fun x => decide (x < 0))).length : ℚ) / (r.length : ℚ) ≤ 1 := by
    rw [div_le_one hlenq]; exact hfl
  have hfrac0 : (0 : ℚ) ≤ ((r.filter (fun x => decide (x < 0))).length : ℚ) / (r.length : ℚ) := by
    positivity
  unfold probLoss probNegative
  refine ⟨by ring, hfrac0, hfrac1, by positivity, ?_⟩
  nlinarith

theorem c6_witness :
    ([-(1 : ℚ)] ≠ []) ∧
    (probLoss [-(1 : ℚ)] = 100 * probNegative [-(1 : ℚ)] ∧
     0 ≤ probNegative [-(1 : ℚ)] ∧ probNegative [-(1 : ℚ)] ≤ 1 ∧
     0 ≤ probLoss [-(1 : ℚ)] ∧ probLoss [-(1 : ℚ)] ≤ 100) :=
  ⟨by simp, c6_amended_prob_loss_scaling [-(1 : ℚ)] (by simp)⟩

end PortfolioMC

namespace PortfolioMC

/-- Claim C2: for every symmetric daily covariance matrix, the factorization
step first attempts a Cholesky factorization; if that fails it adds exactly
1e-6 times the identity and retries exactly once; if the retry also fails it
signals a FactorizationError and does not proceed.  The final conjunct states
that no further retries or different epsilons are ever attempted: the result
depends only on the primitive's answers at the original matrix and at the
once-regularized matrix. -/
theorem c2_factorize_retries_exactly_once {n : ℕ}
    (npCholesky : Matrix (Fin n) (Fin n) ℚ → Option (Matrix (Fin n) (Fin n) ℚ))
    (covDaily : Matrix (Fin n) (Fin n) ℚ)
    (_hsymm : covDaily.transpose = covDaily) :
    (∀ L, npCholesky covDaily = some L →
        factorizeDailyCov npCholesky covDaily = Except.ok L) ∧
    (npCholesky covDaily = none →
      ∀ L, npCholesky (covDaily + regEps • (1 : Matrix (Fin n) (Fin n) ℚ)) = some L →
        factorizeDailyCov npCholesky covDaily = Except.ok L) ∧
    (npCholesky covDaily = none →
      npCholesky (covDaily + regEps • (1 : Matrix (Fin n) (Fin n) ℚ)) = none →
        factorizeDailyCov npCholesky covDaily =
          Except.error FactorizationError.notPositiveDefinite) ∧
    (∀ g : Matrix (Fin n) (Fin n) ℚ → Option (Matrix (Fin n) (Fin n) ℚ),
      npCholesky covDaily = g covDaily →
      npCholesky (covDaily + regEps • (1 : Matrix (Fin n) (Fin n) ℚ)) =
        g (covDaily + regEps • (1 : Matrix (Fin n) (Fin n) ℚ)) →
      factorizeDailyCov npCholesky covDaily = factorizeDailyCov g covDaily) := by
  refine ⟨?_, ?_, ?_, ?_⟩
  · intro L hL
    simp only [factorizeDailyCov, hL]
  · intro h1 L hL
    simp only [factorizeDailyCov, h1, hL]
  · intro h1 h2
    simp only [factorizeDailyCov, h1, h2]
  · intro g hg1 hg2
    simp only [factorizeDailyCov, hg1, hg2]

theorem c2_witness :
    ((1 : Matrix (Fin 1) (Fin 1) ℚ).transpose = 1) ∧
    ((∀ L, idChol 1 = some L →
        factorizeDailyCov idChol 1 = Except.ok L) ∧
     (idChol 1 = none →
       ∀ L, idChol (1 + regEps • (1 : Matrix (Fin 1) (Fin 1) ℚ)) = some L →
         factorizeDailyCov idChol 1 = Except.ok L) ∧
     (idChol 1 = none →
       idChol (1 + regEps • (1 : Matrix (Fin 1) (Fin 1) ℚ)) = none →
         factorizeDailyCov idChol 1 =
           Except.error FactorizationError.notPositiveDefinite) ∧
     (∀ g : Matrix (Fin 1) (Fin 1) ℚ → Option (Matrix (Fin 1) (Fin 1) ℚ),
       idChol 1 = g 1 →
       idChol (1 + regEps • (1 : Matrix (Fin 1) (Fin 1) ℚ)) =
         g (1 + regEps • (1 : Matrix (Fin 1) (Fin 1) ℚ)) →
       factorizeDailyCov idChol 1 = factorizeDailyCov g 1)) :=
  ⟨Matrix.transpose_one,
   c2_factorize_retries_exactly_once idChol 1 Matrix.transpose_one⟩

end PortfolioMC

namespace PortfolioMC

/-- Claim C1: along every simulated path, at every daily step, every asset
price is strictly positive provided the initial prices are strictly positive
(the inputs, being real numbers of the model, are finite): each step
multiplies the current price by the exponential of a real quantity. -/
theorem c1_simulated_prices_strictly_positive {n : ℕ}
    (dailyReturns : Fin n → ℝ) (dailyCov chol : Matrix (Fin n) (Fin n) ℝ)
    (dt : ℝ) (z : ℕ → Fin n → ℝ) (p0 : Fin n → ℝ)
    (hp0 : ∀ i, 0 < p0 i) :
    ∀ t i, 0 < simPrices dailyReturns dailyCov chol dt z p0 t i := by
  intro t
  induction t with
  | zero => exact hp0
  | succ t ih =>
    intro i
    exact mul_pos (ih i) (Real.exp_pos _)

theorem c1_witness :
    (∀ i : Fin 1, 0 < (fun _ : Fin 1 => (1 : ℝ)) i) ∧
    ∀ t i, 0 < simPrices (fun _ : Fin 1 => 0) 0 0 1 (fun _ _ => 0) (fun _ => 1) t i :=
  ⟨fun _ => one_pos,
   c1_simulated_prices_strictly_positive (fun _ : Fin 1 => 0) 0 0 1 (fun _ _ => 0)
     (fun _ => 1) (fun _ => one_pos)⟩

/-- Claim C9 counterexample: at a concrete single-asset instance with a
nonzero draw, the terminal portfolio value reconstructed by the
visualization pass equals (not differs from) the terminal value of the main
pass, because both passes consume the same pre-generated draws. -/
theorem c9_counterexample_same_terminal :
    portfolioValue
      (vizPrices (fun _ : Fin 1 => 0) (Matrix.of fun _ _ => 1) (Matrix.of fun _ _ => 1) 1
        (fun _ _ => 1) (fun _ => 1) 1) (fun _ => 1)
    = portfolioValue
      (simPrices (fun _ : Fin 1 => 0) (Matrix.of fun _ _ => 1) (Matrix.of fun _ _ => 1) 1
        (fun _ _ => 1) (fun _ => 1) 1) (fun _ => 1) := rfl

/-- Claim C9 amended: the visualization pass does not redraw random shocks;
it re-reads the same pre-generated draws (random_matrix[sim, day - 1] for
day = 1..H matches random_matrix[sim, day] for day = 0..H-1), so the
reconstructed prices coincide with the main pass at every day and the two
passes produce identical terminal portfolio values for the same simulation
index. -/
theorem c9_amended_viz_pass_equals_main_pass {n : ℕ}
    (dailyReturns : Fin n → ℝ) (dailyCov chol : Matrix (Fin n) (Fin n) ℝ)
    (dt : ℝ) (z : ℕ → Fin n → ℝ) (p0 : Fin n → ℝ) :
    (∀ d, vizPrices dailyReturns dailyCov chol dt z p0 d
        = simPrices dailyReturns dailyCov chol dt z p0 d) ∧
    (∀ shares d,
      portfolioValue (vizPrices dailyReturns dailyCov chol dt z p0 d) shares
        = portfolioValue (simPrices dailyReturns dailyCov chol dt z p0 d) shares) := by
  have key : ∀ d, vizPrices dailyReturns dailyCov chol dt z p0 d
      = simPrices dailyReturns dailyCov chol dt z p0 d := by
    intro d
    induction d with
    | zero => rfl
    | succ d ih =>
      show gbmStep dailyReturns dailyCov chol dt (z (d + 1 - 1))
          (vizPrices dailyReturns dailyCov chol dt z p0 d)
        = gbmStep dailyReturns dailyCov chol dt (z d)
          (simPrices dailyReturns dailyCov chol dt z p0 d)
      rw [ih, Nat.add_sub_cancel]
  exact ⟨key, fun shares d => by rw [key d]⟩

end PortfolioMC

namespace PortfolioMC

theorem npCholesky1_zero : npCholesky1 0 = none := if_neg (lt_irrefl 0)

theorem npCholesky1_of_pos {c : ℝ} (h : 0 < c) :
    npCholesky1 c = some (Real.sqrt c) := if_pos h

theorem sqrt_millionth : Real.sqrt (1 / 1000000) = 1 / 1000 := by
  rw [show (1 / 1000000 : ℝ) = (1 / 1000) ^ 2 by norm_num]
  exact Real.sqrt_sq (by norm_num)

theorem runSim1_zero_var_closed_form (p0 : ℝ) (hp0 : p0 ≠ 0) (z : ℕ → ℝ) (H : ℕ) :
    runSim1 0 0 p0 1 z H =
      Except.ok (100000 *
        Real.exp (∑ t ∈ Finset.range H, (-(1/2000000 : ℝ) + (1/1000000) * z t))) := by
  have hreg : (0 : ℝ) + 1 / 1000000 = 1 / 1000000 := by norm_num
  have hchol : npCholesky1 ((0 : ℝ) + 1 / 1000000) = some (Real.sqrt (1 / 1000000)) := by
    rw [hreg]
    exact npCholesky1_of_pos (by norm_num)
  have hprices : ∀ t, simPrices (fun _ : Fin 1 => (0 : ℝ))
      (Matrix.of fun _ _ => (0 : ℝ) + 1 / 1000000)
      (Matrix.of fun _ _ => Real.sqrt (1 / 1000000)) 1
      (fun u _ => z u) (fun _ => p0) t
      = fun _ => p0 * Real.exp (∑ u ∈ Finset.range t,
          (-(1/2000000 : ℝ) + (1/1000000) * z u)) := by
    intro t
    induction t with
    | zero =>
      funext i
      simp [simPrices]
    | succ t ih =>
      funext i
      simp only [simPrices, gbmStep, ih]
      simp only [Matrix.of_apply, Fin.sum_univ_one]
      rw [show ((0 : ℝ) + 1 / 1000000) * 1 = 1 / 1000000 by norm_num]
      rw [sqrt_millionth]
      rw [show ((0 : ℝ) - 0.5 * ((0 : ℝ) + 1 / 1000000)) * 1
            + 1 / 1000 * (1 / 1000 * z t)
          = -(1/2000000 : ℝ) + (1/1000000) * z t by ring_nf]
      rw [Finset.sum_range_succ]
      rw [Real.exp_add (∑ u ∈ Finset.range t, (-(1/2000000 : ℝ) + (1/1000000) * z u))
        (-(1/2000000 : ℝ) + (1/1000000) * z t)]
      ring
  simp only [runSim1, npCholesky1_zero, hchol]
  rw [hprices H]
  simp only [portfolioValue, sharesHeld, Fin.sum_univ_one]
  congr 1
  field_simp
  ring

/-- Claim C8 counterexample: with a single asset, daily mean 0, daily
variance 0, weight 1, initial price 1 and the all-zero draw over the default
252-day horizon, the terminal portfolio value is 100000 * exp(-63/500000),
not the initial investment 100000: the zero covariance fails plain Cholesky,
the 1e-6 regularization feeds the drift, and the terminal value drifts away
from V0. -/
theorem c8_counterexample_terminal_ne_initial :
    runSim1 0 0 1 1 (fun _ => 0) 252 ≠ Except.ok 100000 := by
  rw [runSim1_zero_var_closed_form 1 one_ne_zero (fun _ => 0) 252]
  intro hcontra
  have h2 : (100000 : ℝ) *
      Real.exp (∑ t ∈ Finset.range 252, (-(1/2000000 : ℝ) + (1/1000000) * 0))
      = 100000 := Except.ok.inj hcontra
  have hsum : (∑ t ∈ Finset.range 252, (-(1/2000000 : ℝ) + (1/1000000) * 0))
      = -(63/500000 : ℝ) := by
    rw [Finset.sum_const]
    norm_num
  rw [hsum] at h2
  have hexp : Real.exp (-(63/500000 : ℝ)) = 1 := by
    have h3 : (100000 : ℝ) * Real.exp (-(63/500000 : ℝ)) = 100000 * 1 := by
      rw [h2, mul_one]
    exact mul_left_cancel₀ (by norm_num : (100000 : ℝ) ≠ 0) h3
  have := (Real.exp_eq_one_iff _).mp hexp
  norm_num at this

/-- Claim C8 amended: with a single asset, daily mean 0 and daily variance 0,
the zero covariance matrix is not positive definite, so the code's plain
Cholesky attempt fails and the 1e-6 regularization is applied in place;
every simulated terminal portfolio value then equals
V0 * exp(sum over the H steps of (-1/2000000 + (1/1000000) * z_t)), for any
strictly nonzero initial price - equal to V0 = 100000 only when that
exponent vanishes, not identically in the draws. -/
theorem c8_amended_regularized_terminal_value (p0 : ℝ) (hp0 : p0 ≠ 0)
    (z : ℕ → ℝ) (H : ℕ) :
    runSim1 0 0 p0 1 z H =
      Except.ok (100000 *
        Real.exp (∑ t ∈ Finset.range H, (-(1/2000000 : ℝ) + (1/1000000) * z t))) :=
  runSim1_zero_var_closed_form p0 hp0 z H

theorem c8_witness :
    ((1 : ℝ) ≠ 0) ∧
    runSim1 0 0 1 1 (fun _ => 0) 0 =
      Except.ok (100000 *
        Real.exp (∑ _t ∈ Finset.range 0, (-(1/2000000 : ℝ) + (1/1000000) * 0))) :=
  ⟨one_ne_zero, c8_amended_regularized_terminal_value 1 one_ne_zero (fun _ => 0) 0⟩

end PortfolioMC

namespace PortfolioMC

theorem logReturns_nil_of_short {n : ℕ} (logf : ℚ → ℚ)
    (prices : List (Fin n → ℚ)) (h : prices.length < 2) :
    logReturns logf prices = [] := by
  apply List.length_eq_zero.mp
  simp only [logReturns, List.length_map, List.length_zip, List.length_tail]
  omega

/-- Claim C7 counterexample: at the concrete single-observation price panel
[[1]] (one asset, one row), the estimation does not signal the spec's
InsufficientDataError; it succeeds, returning the NaN-valued (modelled none)
annualized mean vector and covariance matrix. -/
theorem c7_counterexample_no_error_single_row :
    calculatePortfolioStatistics (n := 1) (fun x => x) [fun _ => 1]
      ≠ Except.error EstimationError.insufficientData ∧
    ∃ s, calculatePortfolioStatistics (n := 1) (fun x => x) [fun _ => 1]
        = Except.ok s ∧ s.meanReturns = none ∧ s.covMatrix = none := by
  have hnil : logReturns (n := 1) (fun x => x) [fun _ => 1] = [] :=
    logReturns_nil_of_short _ _ (by simp)
  constructor
  · simp [calculatePortfolioStatistics]
  · refine ⟨_, rfl, ?_, ?_⟩
    · simp [calculatePortfolioStatistics, hnil, colMean]
    · simp [calculatePortfolioStatistics, hnil, colCov]

/-- Claim C7 amended: with fewer than 2 price observations per asset the
estimation does not fail: no InsufficientDataError (or any error) is
signalled anywhere in the source; the log-return frame is empty and the
returned annualized mean vector and covariance matrix are the NaN values
produced by pandas on an empty frame, modelled as none. -/
theorem c7_amended_short_panel_yields_nan_stats {n : ℕ} (logf : ℚ → ℚ)
    (prices : List (Fin n → ℚ)) (hT : prices.length < 2) :
    ∃ s, calculatePortfolioStatistics logf prices = Except.ok s ∧
      s.meanReturns = none ∧ s.covMatrix = none := by
  have hnil : logReturns logf prices = [] := logReturns_nil_of_short _ _ hT
  refine ⟨_, rfl, ?_, ?_⟩
  · simp [calculatePortfolioStatistics, hnil, colMean]
  · simp [calculatePortfolioStatistics, hnil, colCov]

theorem c7_witness :
    ([fun _ => (1 : ℚ)] : List (Fin 1 → ℚ)).length < 2 ∧
    ∃ s, calculatePortfolioStatistics (n := 1) (fun x => x) [fun _ => 1]
        = Except.ok s ∧ s.meanReturns = none ∧ s.covMatrix = none :=
  ⟨by simp,
   c7_amended_short_panel_yields_nan_stats (fun x => x) [fun _ => 1] (by simp)⟩

end PortfolioMC

namespace PortfolioMC

theorem setEntry_same {α : Type} (M : ℕ → ℕ → α) (day sim : ℕ) (v : α) :
    setEntry M day sim v day sim = v := if_pos ⟨rfl, rfl⟩

theorem setEntry_other {α : Type} (M : ℕ → ℕ → α) (day sim : ℕ) (v : α)
    {d s : ℕ} (h : ¬(d = day ∧ s = sim)) :
    setEntry M day sim v d s = M d s := if_neg h

theorem foldl_days_other_col {α : Type} (viz : ℕ → ℕ → α) (sim : ℕ)
    (L : List ℕ) (M : ℕ → ℕ → α) (d s : ℕ) (h : s ≠ sim) :
    (L.foldl (fun acc day => setEntry acc day sim (viz sim day)) M) d s = M d s := by
  induction L generalizing M with
  | nil => rfl
  | cons a L ih =>
    rw [List.foldl_cons, ih]
    exact setEntry_other _ _ _ _ (fun hc => h hc.2)

theorem fillSim_other_col {α : Type} (H : ℕ) (terminal : ℕ → α)
    (viz : ℕ → ℕ → α) (M : ℕ → ℕ → α) (sim : ℕ) {d s : ℕ} (h : s ≠ sim) :
    fillSim H terminal viz M sim d s = M d s := by
  unfold fillSim
  by_cases h100 : sim < 100
  · rw [if_pos h100, foldl_days_other_col _ _ _ _ _ _ h]
    exact setEntry_other _ _ _ _ (fun hc => h hc.2)
  · rw [if_neg h100]
    exact setEntry_other _ _ _ _ (fun hc => h hc.2)

theorem foldl_sims_not_mem {α : Type} (H : ℕ) (terminal : ℕ → α)
    (viz : ℕ → ℕ → α) (L : List ℕ) (M : ℕ → ℕ → α) (d s : ℕ) (h : s ∉ L) :
    (L.foldl (fillSim H terminal viz) M) d s = M d s := by
  induction L generalizing M with
  | nil => rfl
  | cons a L ih =>
    rw [List.foldl_cons, ih _ (fun hm => h (List.mem_cons_of_mem a hm))]
    exact fillSim_other_col _ _ _ _ _ (fun he => h (he ▸ List.mem_cons_self a L))

theorem fillSim_self_of_ge100 {α : Type} (H : ℕ) (terminal : ℕ → α)
    (viz : ℕ → ℕ → α) (M : ℕ → ℕ → α) (sim : ℕ) (h100 : 100 ≤ sim) (d : ℕ) :
    fillSim H terminal viz M sim d sim =
      if d = H then terminal sim else M d sim := by
  unfold fillSim
  rw [if_neg (by omega : ¬ sim < 100)]
  by_cases hd : d = H
  · subst hd
    rw [if_pos rfl]
    exact setEntry_same _ _ _ _
  · rw [if_neg hd]
    exact setEntry_other _ _ _ _ (fun hc => hd hc.1)

theorem portfolioPathsMatrix_eval_ge100 {α : Type} (H : ℕ) (zeroV initV : α)
    (terminal : ℕ → α) (viz : ℕ → ℕ → α) (nsims sim : ℕ)
    (h100 : 100 ≤ sim) (hsim : sim < nsims) (d : ℕ) :
    portfolioPathsMatrix H nsims zeroV initV terminal viz d sim =
      if d = H then terminal sim else if d = 0 then initV else zeroV := by
  unfold portfolioPathsMatrix
  induction nsims with
  | zero => omega
  | succ m ih =>
    rw [List.range_succ, List.foldl_append, List.foldl_cons, List.foldl_nil]
    rcases Nat.lt_or_ge sim m with hlt | hge
    · rw [fillSim_other_col _ _ _ _ _ (by omega : sim ≠ m)]
      exact ih hlt
    · have hsm : sim = m := by omega
      subst hsm
      rw [fillSim_self_of_ge100 _ _ _ _ _ h100 d]
      rw [foldl_sims_not_mem _ _ _ _ _ _ _ (by simp [List.mem_range])]
      rfl

end PortfolioMC

namespace PortfolioMC

/-- Claim C10: in run_monte_carlo_portfolio, for every simulation index at or
beyond 100 (and below n_sims), the returned portfolio-path matrix holds the
initial value 100000 at row 0 and the main-pass terminal portfolio value at
the last row H, while every intermediate row day with 1 <= day <= H - 1
remains at its initialized value 0.0, because the per-day visualization
writes only cover the first 100 simulations. -/
theorem c10_intermediate_rows_stay_zero {n : ℕ} (dailyReturns : Fin n → ℝ)
    (dailyCov chol : Matrix (Fin n) (Fin n) ℝ)
    (randomMatrix : ℕ → ℕ → Fin n → ℝ) (p0 weights : Fin n → ℝ)
    (H nsims sim day : ℕ)
    (h100 : 100 ≤ sim) (hsim : sim < nsims) (hday1 : 1 ≤ day) (hdayH : day < H) :
    runMonteCarloPaths dailyReturns dailyCov chol randomMatrix p0 weights H nsims day sim = 0 ∧
    runMonteCarloPaths dailyReturns dailyCov chol randomMatrix p0 weights H nsims 0 sim = 100000 ∧
    runMonteCarloPaths dailyReturns dailyCov chol randomMatrix p0 weights H nsims H sim =
      portfolioValue (simPrices dailyReturns dailyCov chol 1 (randomMatrix sim) p0 H)
        (sharesHeld weights p0) := by
  unfold runMonteCarloPaths
  refine ⟨?_, ?_, ?_⟩
  · rw [portfolioPathsMatrix_eval_ge100 _ _ _ _ _ _ _ h100 hsim]
    rw [if_neg (by omega : ¬ day = H), if_neg (by omega : ¬ day = 0)]
  · rw [portfolioPathsMatrix_eval_ge100 _ _ _ _ _ _ _ h100 hsim]
    rw [if_neg (by omega : ¬ (0 : ℕ) = H), if_pos rfl]
  · rw [portfolioPathsMatrix_eval_ge100 _ _ _ _ _ _ _ h100 hsim]
    rw [if_pos rfl]

theorem c10_witness :
    ((100 : ℕ) ≤ 100 ∧ (100 : ℕ) < 101 ∧ (1 : ℕ) ≤ 1 ∧ (1 : ℕ) < 2) ∧
    (runMonteCarloPaths (fun _ : Fin 1 => 0) 0 0 (fun _ _ _ => 0) (fun _ => 1)
        (fun _ => 1) 2 101 1 100 = 0 ∧
     runMonteCarloPaths (fun _ : Fin 1 => 0) 0 0 (fun _ _ _ => 0) (fun _ => 1)
        (fun _ => 1) 2 101 0 100 = 100000 ∧
     runMonteCarloPaths (fun _ : Fin 1 => 0) 0 0 (fun _ _ _ => 0) (fun _ => 1)
        (fun _ => 1) 2 101 2 100 =
       portfolioValue (simPrices (fun _ : Fin 1 => 0) 0 0 1 ((fun _ _ _ => 0) 100)
          (fun _ => 1) 2) (sharesHeld (fun _ => 1) (fun _ => 1))) :=
  ⟨⟨le_refl 100, by omega, le_refl 1, by omega⟩,
   c10_intermediate_rows_stay_zero (fun _ : Fin 1 => 0) 0 0 (fun _ _ _ => 0)
     (fun _ => 1) (fun _ => 1) 2 101 100 1 (le_refl 100) (by omega) (le_refl 1) (by omega)⟩

end PortfolioMC
